import Mathlib

/-!
# rclone `serve sftp` command (cmd/serve/sftp/sftp.go)

A shallow embedding of the command definition of `rclone serve sftp`:
the `Options` record and its defaults, the flag registration done by
`AddFlags`, and the `Run` function of the cobra command together with the
function it hands to `cmd.Run`.

Code that the command calls but that lives in other files (package `cmd`,
the server of this package, the flag helpers) is represented either by
fields of an environment record or by definitions written from the design
document; each such definition says so in its doc comment.
-/

namespace Sftp

/-! ## Options -/

/-- Options contains options for the server (`type Options struct`). -/
structure Options where
  ListenAddr : String
  Key : String
  AuthorizedKeys : String
  User : String
  Pass : String
  NoAuth : Bool
deriving DecidableEq, Repr

/-- DefaultOpt is the default values used for Options.  The composite literal
names two fields; the others take Go's zero value. -/
def DefaultOpt : Options :=
  { ListenAddr := "localhost:2022"
    Key := ""
    AuthorizedKeys := "~/.ssh/authorized_keys"
    User := ""
    Pass := ""
    NoAuth := false }

/-- Opt is options set by command line flags; this is its initial value
(`var Opt = DefaultOpt`). -/
def Opt : Options := DefaultOpt

/-! ## Flags -/

/-- The string fields of `Options` a `*string` argument can point at. -/
inductive StringField
  | ListenAddr | Key | AuthorizedKeys | User | Pass
deriving DecidableEq, Repr

/-- The bool fields of `Options` a `*bool` argument can point at. -/
inductive BoolField
  | NoAuth
deriving DecidableEq, Repr

/-- A pointer to one field of an `Options` value (`&Opt.X`). -/
inductive Field
  | string (p : StringField)
  | bool (p : BoolField)
deriving DecidableEq, Repr

/-- A flag value: the sftp flags are string or bool flags. -/
inductive Value
  | string (s : String)
  | bool (b : Bool)
deriving DecidableEq, Repr

/-- Read through a `*string` pointer. -/
def Options.getString (o : Options) : StringField → String
  | .ListenAddr => o.ListenAddr
  | .Key => o.Key
  | .AuthorizedKeys => o.AuthorizedKeys
  | .User => o.User
  | .Pass => o.Pass

/-- Write through a `*string` pointer. -/
def Options.setString (o : Options) : StringField → String → Options
  | .ListenAddr, s => { o with ListenAddr := s }
  | .Key, s => { o with Key := s }
  | .AuthorizedKeys, s => { o with AuthorizedKeys := s }
  | .User, s => { o with User := s }
  | .Pass, s => { o with Pass := s }

/-- Read through a `*bool` pointer. -/
def Options.getBool (o : Options) : BoolField → Bool
  | .NoAuth => o.NoAuth

/-- Write through a `*bool` pointer. -/
def Options.setBool (o : Options) : BoolField → Bool → Options
  | .NoAuth, b => { o with NoAuth := b }

/-- Read the field a pointer designates. -/
def Options.get (o : Options) : Field → Value
  | .string p => .string (o.getString p)
  | .bool p => .bool (o.getBool p)

/-- One registered flag: its name, shorthand and usage text, the variable it
is bound to and the default value it was registered with. -/
structure Flag where
  Name : String
  Shorthand : String
  Usage : String
  target : Field
  DefValue : Value
deriving DecidableEq, Repr

/-- A flag set, in registration order. -/
abbrev FlagSet := List Flag

/-- Find the flag of a given name. -/
def FlagSet.Lookup (flagSet : FlagSet) (name : String) : Option Flag :=
  flagSet.find? (fun fl => fl.Name == name)

/-- The call `flags.StringVarP(flagSet, p, name, shorthand, value, usage)`:
the flag is added to the set with `value` as default, and `value` is stored
in the variable `p` points at. -/
def StringVarP (st : FlagSet × Options) (p : StringField)
    (name shorthand value usage : String) : FlagSet × Options :=
  (st.1 ++ [{ Name := name, Shorthand := shorthand, Usage := usage,
              target := .string p, DefValue := .string value }],
   st.2.setString p value)

/-- The call `flags.BoolVarP(flagSet, p, name, shorthand, value, usage)`. -/
def BoolVarP (st : FlagSet × Options) (p : BoolField)
    (name shorthand : String) (value : Bool) (usage : String) : FlagSet × Options :=
  (st.1 ++ [{ Name := name, Shorthand := shorthand, Usage := usage,
              target := .bool p, DefValue := .bool value }],
   st.2.setBool p value)

/-- AddFlags adds flags for the sftp.  The state threaded through is the flag
set and the `Options` value the pointer argument designates; each default is
read from that value when its line runs.  (`rc.AddOption` only records the
pointer in the remote-control registry and touches neither.) -/
def AddFlags (flagSet : FlagSet) (Opt : Options) : FlagSet × Options :=
  let st : FlagSet × Options := (flagSet, Opt)
  let st := StringVarP st .ListenAddr "addr" "" st.2.ListenAddr "IPaddress:Port or :Port to bind server to."
  let st := StringVarP st .Key "key" "" st.2.Key "SSH private key file (leave blank to auto generate)"
  let st := StringVarP st .AuthorizedKeys "authorized-keys" "" st.2.AuthorizedKeys "Authorized keys file"
  let st := StringVarP st .User "user" "" st.2.User "User name for authentication."
  let st := StringVarP st .Pass "pass" "" st.2.Pass "Password for authentication."
  let st := BoolVarP st .NoAuth "no-auth" "" st.2.NoAuth "Allow connections with no authentication if set."
  st

/-- The flags `AddFlags` appended to the set it was given. -/
def addedFlags (flagSet : FlagSet) (o : Options) : List Flag :=
  (AddFlags flagSet o).1.drop flagSet.length

/-- The text forms a bool flag accepts (Go's `strconv.ParseBool`). -/
def ParseBool (s : String) : Option Bool :=
  if s ∈ ["1", "t", "T", "TRUE", "true", "True"] then some true
  else if s ∈ ["0", "f", "F", "FALSE", "false", "False"] then some false
  else none

/-- Setting a flag from its text form stores the value in the variable the
flag is bound to; a text that is no bool is an error for a bool flag. -/
def Flag.Set (fl : Flag) (s : String) (o : Options) : Option Options :=
  match fl.target with
  | .string p => some (o.setString p s)
  | .bool p => (ParseBool s).map (o.setBool p)

/-- Setting the flag of a given name; an unknown name is an error. -/
def FlagSet.Set (flagSet : FlagSet) (name value : String) (o : Options) : Option Options :=
  match flagSet.Lookup name with
  | none => none
  | some fl => fl.Set value o

/-- Parsing a command line, given as the list of its `--name=value` items in
order: each sets its flag; the first error stops the parse. -/
def FlagSet.Parse (flagSet : FlagSet) : List (String × String) → Options → Option Options
  | [], o => some o
  | (name, value) :: rest, o =>
    match flagSet.Set name value o with
    | none => none
    | some o1 => flagSet.Parse rest o1

/-! ## The command's Run -/

/-- The calls the command makes outside this file, and the points where
control comes back, in the order they happen. -/
inductive Event (Fs Srv ε : Type)
  | CheckArgs (MinArgs MaxArgs : Nat) (args : List String)
  | NewFsSrc (args : List String)
  | cmdRun (a b : Bool)
  | newServer (f : Fs) (opt : Options)
  | Serve (s : Srv)
  | ServeRet (s : Srv) (err : Option ε)
  | Wait (s : Srv)
  | WaitRet (s : Srv)
  | ret (err : Option ε)
deriving DecidableEq, Repr

/-- The functions the command calls that are defined in other files.  A Go
`error` is an `Option ε`, `none` being `nil`.
* `CheckArgs MinArgs MaxArgs args` tells whether `cmd.CheckArgs` returns to
  its caller (it ends the process otherwise);
* `NewFsSrc args` is the filesystem `cmd.NewFsSrc` returns, `none` when it
  ends the process;
* `cmdRun a b` is the number of times `cmd.Run(a, b, command, f)` calls `f`;
* `newServer f opt` is the server value built;
* `Serve s` is the server after `s.Serve()` together with the error returned,
  `none` when the call does not return;
* `Wait s` is the server after `s.Wait()`, `none` when the call does not
  return. -/
structure Env (Fs Srv ε : Type) where
  CheckArgs : Nat → Nat → List String → Bool
  NewFsSrc : List String → Option Fs
  cmdRun : Bool → Bool → Nat
  newServer : Fs → Options → Srv
  Serve : Srv → Option (Srv × Option ε)
  Wait : Srv → Option Srv

variable {Fs Srv ε : Type}

/-- The function literal `func() error` passed to `cmd.Run`, closed over `f`
and reading the package variable `Opt`, whose current value is `opt`.  The
result is the sequence of events of one call of it; the last one is
`ret err` exactly when the call returns `err`. -/
def callback (env : Env Fs Srv ε) (f : Fs) (opt : Options) : List (Event Fs Srv ε) :=
  let s := env.newServer f opt
  Event.newServer f opt :: Event.Serve s ::
    match env.Serve s with
    | none => []
    | some (s1, some err) => [Event.ServeRet s1 (some err), Event.ret (some err)]
    | some (s1, none) =>
      Event.ServeRet s1 none :: Event.Wait s1 ::
        match env.Wait s1 with
        | none => []
        | some s2 => [Event.WaitRet s2, Event.ret none]

/-- What a call with the given events returned: the error of its final
`ret` event, and `none` when the call did not return. -/
def returned (tr : List (Event Fs Srv ε)) : Option (Option ε) :=
  match tr.getLast? with
  | some (Event.ret err) => some err
  | _ => none

/-- Is this event a call of `Wait`? -/
def Event.isWait : Event Fs Srv ε → Bool
  | .Wait _ => true
  | _ => false

/-- Is this event the construction of a server? -/
def Event.isNewServer : Event Fs Srv ε → Bool
  | .newServer _ _ => true
  | _ => false

/-- The `Run` field of `Command`, for the argument list `args`, `opt` being
the value of the package variable `Opt` when it runs. -/
def Run (env : Env Fs Srv ε) (opt : Options) (args : List String) : List (Event Fs Srv ε) :=
  Event.CheckArgs 1 1 args ::
    if env.CheckArgs 1 1 args then
      Event.NewFsSrc args ::
        match env.NewFsSrc args with
        | none => []
        | some f =>
          Event.cmdRun false true ::
            (List.replicate (env.cmdRun false true) (callback env f opt)).flatten
    else []

/-- An environment to run the definitions in: filesystems are remote names,
servers are counters, `CheckArgs` lets the run go on exactly when the number
of arguments is within the bounds, `cmd.Run` calls its function once,
`Serve` fails on the filesystem named "bad:" and `Wait` returns. -/
def sampleEnv : Env String (String × Nat) String :=
  { CheckArgs := fun lo hi args => decide (lo ≤ args.length ∧ args.length ≤ hi)
    NewFsSrc := fun args => args.head?
    cmdRun := fun _ _ => 1
    newServer := fun f _ => (f, 0)
    Serve := fun s => some ((s.1, s.2 + 1), if s.1 = "bad:" then some "listen failed" else none)
    Wait := fun s => some (s.1, s.2 + 1) }

/-- As `sampleEnv`, with a `Wait` that never returns. -/
def blockingEnv : Env String (String × Nat) String :=
  { sampleEnv with Wait := fun _ => none }

/-! ## The server behind the command

`newServer`, `Serve` and `Wait` are defined in another file of the package.
The definitions of this section are written from the design document
(sections 4.1, 4.2 and 4.8). -/

/-- Modelled from the spec: the credential a client presents in one attempt
(section 2, item 2: a password, a public key, or none); the Authenticator
that consumes it is in the server file, which is not part of the sources
at hand.  A public key is identified by its fingerprint. -/
inductive CredentialAttempt
  | empty
  | password (user pass : String)
  | publicKey (user fingerprint : String)
deriving DecidableEq, Repr

/-- Modelled from the spec: the three supported policies of section 4.2 of
the absent Authenticator: open access, a single user/password pair, an
authorized-keys list of fingerprints. -/
inductive Policy
  | noAuth
  | userPass (user pass : String)
  | authorizedKeys (list : List String)
deriving DecidableEq, Repr

/-- Modelled from the spec: the Authentication Decision of section 3 (the
result type of the absent Authenticator): accept or reject, optionally
carrying the authenticated principal name. -/
structure AuthenticationDecision where
  accept : Bool
  principal : Option String
deriving DecidableEq, Repr

/-- Modelled from the spec: whether a user/password pair is configured, for
the absent Authenticator.  `User` and `Pass` are plain strings whose unset
value is the empty string, so a pair is set when either differs from it. -/
def userPassSet (opt : Options) : Bool :=
  opt.User != "" || opt.Pass != ""

/-- Modelled from the spec: the policy the absent Authenticator works under,
by the precedence of section 4.2: (1) the no-authentication flag,
(2) the user/password pair, (3) the authorized-keys list, `authorizedKeys`
being the resolved list when one is available; `none` when no policy is
configured at all. -/
def configuredPolicy (opt : Options) (authorizedKeys : Option (List String)) : Option Policy :=
  if opt.NoAuth then some Policy.noAuth
  else if userPassSet opt then some (Policy.userPass opt.User opt.Pass)
  else authorizedKeys.map Policy.authorizedKeys

/-- Modelled from the spec: the user name an attempt is made under, for the
principal of a decision of the absent Authenticator. -/
def CredentialAttempt.user : CredentialAttempt → Option String
  | .empty => none
  | .password user _ => some user
  | .publicKey user _ => some user

/-- Modelled from the spec: the decision of the absent Authenticator under
one policy (section 4.2): no-auth accepts every attempt regardless of the
credential; user/password accepts only if both match the configured values
exactly; authorized keys accepts if the offered key's fingerprint is present
in the list. -/
def Policy.Authenticate : Policy → CredentialAttempt → AuthenticationDecision
  | .noAuth, a => { accept := true, principal := a.user }
  | .userPass user pass, .password u p =>
    if u = user ∧ p = pass then { accept := true, principal := some u }
    else { accept := false, principal := none }
  | .userPass _ _, _ => { accept := false, principal := none }
  | .authorizedKeys list, .publicKey u fp =>
    if fp ∈ list then { accept := true, principal := some u }
    else { accept := false, principal := none }
  | .authorizedKeys _, _ => { accept := false, principal := none }

/-- Modelled from the spec: `Authenticate(credentialAttempt)` of section 4.2,
absent from the sources at hand, for the options and the resolved
authorized-keys list the server was given.  With no policy configured no
server runs; the decision is then a rejection. -/
def Authenticate (opt : Options) (authorizedKeys : Option (List String))
    (a : CredentialAttempt) : AuthenticationDecision :=
  match configuredPolicy opt authorizedKeys with
  | none => { accept := false, principal := none }
  | some policy => policy.Authenticate a

/-- Modelled from the spec: the errors that are fatal to start-up
(sections 4.1, 4.2, 4.8 and 7), returned by the absent `Serve`. -/
inductive StartError
  | NoAuthPolicyError
  | KeyLoadError
  | KeyGenError
  | BindError
deriving DecidableEq, Repr

/-- Modelled from the spec: where the absent Host Identity Provider takes the
host key from (section 4.1): a configured path, or generation with caching. -/
inductive HostKeySource
  | load (path : String)
  | generateAndCache
deriving DecidableEq, Repr

/-- Modelled from the spec: the choice made by the absent `GetHostKey` of
section 4.1: a configured path is loaded, and with no path configured a key
is generated and cached.  The path is the `Key` option, a string, which is
blank when no path is configured. -/
def hostKeySource (configuredPath : String) : HostKeySource :=
  if configuredPath = "" then HostKeySource.generateAndCache
  else HostKeySource.load configuredPath

/-- Modelled from the spec: what the machine answers to the absent server at
start-up: the fingerprints of an authorized-keys file when a list can be had
from it, the key stored in a key file, the generated and cached key, and
whether an address can be bound. -/
structure Host where
  authorizedKeys : String → Option (List String)
  loadKey : String → Option String
  generateKey : Option String
  bind : String → Bool

/-- Modelled from the spec: `GetHostKey(configuredPath)` of section 4.1,
absent from the sources at hand; `KeyLoadError` on an unreadable key file,
`KeyGenError` when generation or persistence fails. -/
def GetHostKey (host : Host) (configuredPath : String) : Except StartError String :=
  match hostKeySource configuredPath with
  | .load path =>
    match host.loadKey path with
    | some key => .ok key
    | none => .error StartError.KeyLoadError
  | .generateAndCache =>
    match host.generateKey with
    | some key => .ok key
    | none => .error StartError.KeyGenError

/-- Modelled from the spec: a server that has started (the result of the
absent `Serve`): the policy its Authenticator works under, its host key and
the address it is bound to. -/
structure Running where
  policy : Policy
  hostKey : String
  addr : String
deriving DecidableEq, Repr

/-- Modelled from the spec: `Serve()` of section 4.8, absent from the sources
at hand: Authenticator and Host Identity Provider setup validation, then the
binding of the listener; an error of any of them is returned and nothing is
started.  The policy check comes first: with no policy configured the
server fails fast with `NoAuthPolicyError` (section 4.2). -/
def Serve (host : Host) (opt : Options) : Except StartError Running :=
  match configuredPolicy opt (host.authorizedKeys opt.AuthorizedKeys) with
  | none => .error StartError.NoAuthPolicyError
  | some policy =>
    match GetHostKey host opt.Key with
    | .error err => .error err
    | .ok key =>
      if host.bind opt.ListenAddr then
        .ok { policy := policy, hostKey := key, addr := opt.ListenAddr }
      else .error StartError.BindError

/-- A machine to run the definitions on: one authorized-keys file with two
fingerprints, no key file, a key generator that works, every address free. -/
def sampleHost : Host :=
  { authorizedKeys := fun path =>
      if path = "~/.ssh/authorized_keys" then some ["SHA256:aaa", "SHA256:bbb"] else none
    loadKey := fun _ => none
    generateKey := some "generated-key"
    bind := fun _ => true }

/-- A machine without any authorized-keys file. -/
def bareHost : Host :=
  { sampleHost with authorizedKeys := fun _ => none }

/-- The flag `addr` as the command registers it. -/
def addrFlag : Flag :=
  { Name := "addr", Shorthand := "", Usage := "IPaddress:Port or :Port to bind server to.",
    target := Field.string .ListenAddr, DefValue := Value.string "localhost:2022" }

/-! ## Shared lemmas -/

/-- The flag set after `AddFlags`: the six flags are appended, in order. -/
theorem AddFlags_fst (flagSet : FlagSet) (o : Options) :
    (AddFlags flagSet o).1 = flagSet ++
      [{ Name := "addr", Shorthand := "", Usage := "IPaddress:Port or :Port to bind server to.",
         target := .string .ListenAddr, DefValue := .string o.ListenAddr },
       { Name := "key", Shorthand := "", Usage := "SSH private key file (leave blank to auto generate)",
         target := .string .Key, DefValue := .string o.Key },
       { Name := "authorized-keys", Shorthand := "", Usage := "Authorized keys file",
         target := .string .AuthorizedKeys, DefValue := .string o.AuthorizedKeys },
       { Name := "user", Shorthand := "", Usage := "User name for authentication.",
         target := .string .User, DefValue := .string o.User },
       { Name := "pass", Shorthand := "", Usage := "Password for authentication.",
         target := .string .Pass, DefValue := .string o.Pass },
       { Name := "no-auth", Shorthand := "", Usage := "Allow connections with no authentication if set.",
         target := .bool .NoAuth, DefValue := .bool o.NoAuth }] := by
  simp [AddFlags, StringVarP, BoolVarP, Options.setString, Options.setBool]

/-- The options value after `AddFlags` is the one before. -/
theorem AddFlags_snd (flagSet : FlagSet) (o : Options) : (AddFlags flagSet o).2 = o := by
  cases o
  simp [AddFlags, StringVarP, BoolVarP, Options.setString, Options.setBool]

/-- The flags added, spelled out. -/
theorem addedFlags_eq (flagSet : FlagSet) (o : Options) :
    addedFlags flagSet o =
      [{ Name := "addr", Shorthand := "", Usage := "IPaddress:Port or :Port to bind server to.",
         target := .string .ListenAddr, DefValue := .string o.ListenAddr },
       { Name := "key", Shorthand := "", Usage := "SSH private key file (leave blank to auto generate)",
         target := .string .Key, DefValue := .string o.Key },
       { Name := "authorized-keys", Shorthand := "", Usage := "Authorized keys file",
         target := .string .AuthorizedKeys, DefValue := .string o.AuthorizedKeys },
       { Name := "user", Shorthand := "", Usage := "User name for authentication.",
         target := .string .User, DefValue := .string o.User },
       { Name := "pass", Shorthand := "", Usage := "Password for authentication.",
         target := .string .Pass, DefValue := .string o.Pass },
       { Name := "no-auth", Shorthand := "", Usage := "Allow connections with no authentication if set.",
         target := .bool .NoAuth, DefValue := .bool o.NoAuth }] := by
  unfold addedFlags
  rw [AddFlags_fst]
  simp

/-- Looking a name up in a set extended at the end, when the set itself has
no flag of that name. -/
theorem Lookup_append_of_none (flagSet more : FlagSet) (name : String)
    (h : flagSet.Lookup name = none) :
    FlagSet.Lookup (flagSet ++ more) name = FlagSet.Lookup more name := by
  unfold FlagSet.Lookup at *
  rw [List.find?_append, h]
  rfl

/-- Writing through a string pointer leaves every other field as it was. -/
theorem get_setString_of_ne (o : Options) (p : StringField) (s : String) (g : Field)
    (h : g ≠ Field.string p) : (o.setString p s).get g = o.get g := by
  cases p <;> rcases g with (_ | _ | _ | _ | _) | _ <;>
    first
      | exact absurd rfl h
      | rfl

/-- Writing through a bool pointer leaves every other field as it was. -/
theorem get_setBool_of_ne (o : Options) (p : BoolField) (b : Bool) (g : Field)
    (h : g ≠ Field.bool p) : (o.setBool p b).get g = o.get g := by
  cases p
  rcases g with (_ | _ | _ | _ | _) | _ <;>
    first
      | exact absurd rfl h
      | rfl

/-- Setting a flag leaves every field but the one it is bound to as it was. -/
theorem Flag.Set_frame (fl : Flag) (v : String) (o o1 : Options) (h : fl.Set v o = some o1)
    (g : Field) (hg : g ≠ fl.target) : o1.get g = o.get g := by
  unfold Flag.Set at h
  cases ht : fl.target with
  | string p =>
    rw [ht] at h hg
    simp only [Option.some.injEq] at h
    rw [← h]
    exact get_setString_of_ne o p v g hg
  | bool p =>
    rw [ht] at h hg
    cases hb : ParseBool v with
    | none => rw [hb] at h; simp at h
    | some b =>
      rw [hb] at h
      simp only [Option.map_some', Option.some.injEq] at h
      rw [← h]
      exact get_setBool_of_ne o p b g hg

/-! ## Defaults -/

/-- C2: by default the server binds to localhost:2022.  `DefaultOpt.ListenAddr`
is that string, the initial `Opt.ListenAddr` equals it, and after
`AddFlags(flagSet, &Opt)` on a flag set that has no `addr` flag yet, the flag
found under the name `addr` carries that string as its default and is bound
to `ListenAddr`; it is the only flag of that name among those added. -/
theorem default_listen_addr (flagSet : FlagSet) (h : flagSet.Lookup "addr" = none) :
    DefaultOpt.ListenAddr = "localhost:2022" ∧
    Opt.ListenAddr = DefaultOpt.ListenAddr ∧
    (FlagSet.Lookup (AddFlags flagSet Opt).1 "addr").map Flag.DefValue
      = some (Value.string "localhost:2022") ∧
    (FlagSet.Lookup (AddFlags flagSet Opt).1 "addr").map Flag.target
      = some (Field.string StringField.ListenAddr) ∧
    ((addedFlags flagSet Opt).filter (fun fl => fl.Name == "addr")).map Flag.DefValue
      = [Value.string "localhost:2022"] := by
  refine ⟨rfl, rfl, ?_, ?_, ?_⟩
  · rw [AddFlags_fst, Lookup_append_of_none _ _ _ h]
    rfl
  · rw [AddFlags_fst, Lookup_append_of_none _ _ _ h]
    rfl
  · rw [addedFlags_eq]
    rfl

/-- The statement of `default_listen_addr` on the empty flag set. -/
theorem default_listen_addr_witness :
    FlagSet.Lookup [] "addr" = none ∧
    (DefaultOpt.ListenAddr = "localhost:2022" ∧
     Opt.ListenAddr = DefaultOpt.ListenAddr ∧
     (FlagSet.Lookup (AddFlags [] Opt).1 "addr").map Flag.DefValue
       = some (Value.string "localhost:2022") ∧
     (FlagSet.Lookup (AddFlags [] Opt).1 "addr").map Flag.target
       = some (Field.string StringField.ListenAddr) ∧
     ((addedFlags [] Opt).filter (fun fl => fl.Name == "addr")).map Flag.DefValue
       = [Value.string "localhost:2022"]) :=
  ⟨rfl, default_listen_addr [] rfl⟩

/-- C6: the default authorized-keys file location is the one of ssh.
`DefaultOpt.AuthorizedKeys` is "~/.ssh/authorized_keys", so is the initial
`Opt.AuthorizedKeys`, and after `AddFlags(flagSet, &Opt)` on a flag set that
has no `authorized-keys` flag yet, the flag found under that name carries
that string as its default and is bound to `AuthorizedKeys`. -/
theorem default_authorized_keys (flagSet : FlagSet)
    (h : flagSet.Lookup "authorized-keys" = none) :
    DefaultOpt.AuthorizedKeys = "~/.ssh/authorized_keys" ∧
    Opt.AuthorizedKeys = "~/.ssh/authorized_keys" ∧
    (FlagSet.Lookup (AddFlags flagSet Opt).1 "authorized-keys").map Flag.DefValue
      = some (Value.string "~/.ssh/authorized_keys") ∧
    (FlagSet.Lookup (AddFlags flagSet Opt).1 "authorized-keys").map Flag.target
      = some (Field.string StringField.AuthorizedKeys) ∧
    ((addedFlags flagSet Opt).filter (fun fl => fl.Name == "authorized-keys")).map Flag.DefValue
      = [Value.string "~/.ssh/authorized_keys"] := by
  refine ⟨rfl, rfl, ?_, ?_, ?_⟩
  · rw [AddFlags_fst, Lookup_append_of_none _ _ _ h]
    rfl
  · rw [AddFlags_fst, Lookup_append_of_none _ _ _ h]
    rfl
  · rw [addedFlags_eq]
    rfl

/-- The statement of `default_authorized_keys` on the empty flag set. -/
theorem default_authorized_keys_witness :
    FlagSet.Lookup [] "authorized-keys" = none ∧
    (DefaultOpt.AuthorizedKeys = "~/.ssh/authorized_keys" ∧
     Opt.AuthorizedKeys = "~/.ssh/authorized_keys" ∧
     (FlagSet.Lookup (AddFlags [] Opt).1 "authorized-keys").map Flag.DefValue
       = some (Value.string "~/.ssh/authorized_keys") ∧
     (FlagSet.Lookup (AddFlags [] Opt).1 "authorized-keys").map Flag.target
       = some (Field.string StringField.AuthorizedKeys) ∧
     ((addedFlags [] Opt).filter (fun fl => fl.Name == "authorized-keys")).map Flag.DefValue
       = [Value.string "~/.ssh/authorized_keys"]) :=
  ⟨rfl, default_authorized_keys [] rfl⟩

/-- C7: when no `--key` is supplied the host key path is absent.
`DefaultOpt.Key` and the initial `Opt.Key` are the empty string, after
`AddFlags(flagSet, &Opt)` on a flag set that has no `key` flag yet the flag
found under the name `key` has the empty string as its default and is bound
to `Key`, and the empty string is the one path for which the host key is
generated and cached; any other path is loaded. -/
theorem default_key_absent (flagSet : FlagSet) (h : flagSet.Lookup "key" = none) :
    DefaultOpt.Key = "" ∧
    Opt.Key = "" ∧
    (FlagSet.Lookup (AddFlags flagSet Opt).1 "key").map Flag.DefValue
      = some (Value.string "") ∧
    (FlagSet.Lookup (AddFlags flagSet Opt).1 "key").map Flag.target
      = some (Field.string StringField.Key) ∧
    hostKeySource Opt.Key = HostKeySource.generateAndCache ∧
    (∀ path, hostKeySource path = HostKeySource.generateAndCache ↔ path = "") ∧
    (∀ path, path ≠ "" → hostKeySource path = HostKeySource.load path) := by
  refine ⟨rfl, rfl, ?_, ?_, rfl, ?_, ?_⟩
  · rw [AddFlags_fst, Lookup_append_of_none _ _ _ h]
    rfl
  · rw [AddFlags_fst, Lookup_append_of_none _ _ _ h]
    rfl
  · intro path
    unfold hostKeySource
    by_cases hp : path = "" <;> simp [hp]
  · intro path hp
    simp [hostKeySource, hp]

/-- The statement of `default_key_absent` on the empty flag set, with the
path "id_rsa" as a path that is loaded. -/
theorem default_key_absent_witness :
    FlagSet.Lookup [] "key" = none ∧
    (FlagSet.Lookup (AddFlags [] Opt).1 "key").map Flag.DefValue = some (Value.string "") ∧
    hostKeySource Opt.Key = HostKeySource.generateAndCache ∧
    hostKeySource "id_rsa" = HostKeySource.load "id_rsa" :=
  ⟨rfl, (default_key_absent [] rfl).2.2.1, (default_key_absent [] rfl).2.2.2.2.1,
   (default_key_absent [] rfl).2.2.2.2.2.2 "id_rsa" (by decide)⟩

/-! ## Flag registration -/

/-- C9: for every options value `o` and every flag set, `AddFlags(flagSet, &o)`
appends exactly six flags, named addr, key, authorized-keys, user, pass and
no-auth (pairwise distinct), bound in that order to `ListenAddr`, `Key`,
`AuthorizedKeys`, `User`, `Pass` and `NoAuth` (pairwise distinct), each with
the value its field has in `o` as default.  Registering leaves `o` as it
was, and so does parsing an empty command line afterwards.  Setting one of
the flags leaves every field but the one it is bound to as it was, and puts
the value set into that one. -/
theorem AddFlags_six_flags (flagSet : FlagSet) (o : Options) :
    (AddFlags flagSet o).1 = flagSet ++ addedFlags flagSet o ∧
    (addedFlags flagSet o).length = 6 ∧
    (addedFlags flagSet o).map Flag.Name
      = ["addr", "key", "authorized-keys", "user", "pass", "no-auth"] ∧
    ((addedFlags flagSet o).map Flag.Name).Nodup ∧
    (addedFlags flagSet o).map Flag.target
      = [Field.string .ListenAddr, Field.string .Key, Field.string .AuthorizedKeys,
         Field.string .User, Field.string .Pass, Field.bool .NoAuth] ∧
    ((addedFlags flagSet o).map Flag.target).Nodup ∧
    (addedFlags flagSet o).map Flag.DefValue
      = (addedFlags flagSet o).map (fun fl => o.get fl.target) ∧
    (AddFlags flagSet o).2 = o ∧
    FlagSet.Parse (AddFlags flagSet o).1 [] (AddFlags flagSet o).2 = some o ∧
    (∀ fl, fl ∈ addedFlags flagSet o → ∀ (v : String) (o0 o1 : Options),
      fl.Set v o0 = some o1 →
        (∀ g, g ≠ fl.target → o1.get g = o0.get g) ∧
        (∀ p, fl.target = Field.string p → o1.get fl.target = Value.string v) ∧
        (∀ p, fl.target = Field.bool p → (ParseBool v).map Value.bool = some (o1.get fl.target))) := by
  have hadd := addedFlags_eq flagSet o
  refine ⟨?_, ?_, ?_, ?_, ?_, ?_, ?_, AddFlags_snd flagSet o, ?_, ?_⟩
  · rw [hadd, AddFlags_fst]
  · rw [hadd]; rfl
  · rw [hadd]; rfl
  · rw [hadd]
    show ["addr", "key", "authorized-keys", "user", "pass", "no-auth"].Nodup
    decide
  · rw [hadd]; rfl
  · rw [hadd]
    show [Field.string .ListenAddr, Field.string .Key, Field.string .AuthorizedKeys,
      Field.string .User, Field.string .Pass, Field.bool .NoAuth].Nodup
    decide
  · rw [hadd]; rfl
  · rw [AddFlags_snd]; rfl
  · intro fl _ v o0 o1 hset
    refine ⟨fun g hg => Flag.Set_frame fl v o0 o1 hset g hg, ?_, ?_⟩
    · intro p hp
      unfold Flag.Set at hset
      rw [hp] at hset ⊢
      simp only [Option.some.injEq] at hset
      rw [← hset]
      cases p <;> rfl
    · intro p hp
      unfold Flag.Set at hset
      rw [hp] at hset ⊢
      cases hb : ParseBool v with
      | none => rw [hb] at hset; simp at hset
      | some b =>
        rw [hb] at hset
        simp only [Option.map_some', Option.some.injEq] at hset
        rw [← hset]
        cases p
        rfl

/-- The statement of `AddFlags_six_flags` for the flags of the command at the
flag `addr`: setting it to ":2022" on the initial options changes
`ListenAddr` and leaves `AuthorizedKeys` as it was. -/
theorem AddFlags_six_flags_witness :
    addrFlag ∈ addedFlags [] Opt ∧
    addrFlag.Set ":2022" Opt = some { Opt with ListenAddr := ":2022" } ∧
    ({ Opt with ListenAddr := ":2022" } : Options).get (Field.string .AuthorizedKeys)
      = Opt.get (Field.string .AuthorizedKeys) ∧
    ({ Opt with ListenAddr := ":2022" } : Options).get addrFlag.target
      = Value.string ":2022" :=
  ⟨by decide, rfl,
   ((AddFlags_six_flags [] Opt).2.2.2.2.2.2.2.2.2 addrFlag (by decide) ":2022" Opt
      { Opt with ListenAddr := ":2022" } rfl).1 (Field.string .AuthorizedKeys) (by decide),
   ((AddFlags_six_flags [] Opt).2.2.2.2.2.2.2.2.2 addrFlag (by decide) ":2022" Opt
      { Opt with ListenAddr := ":2022" } rfl).2.1 .ListenAddr rfl⟩

/-! ## The function handed to cmd.Run -/

/-- C1: for every error `e`, if `Serve()` returns `e`, the function returns
exactly `e`, `Wait()` is not called, and the events of the call are the
construction of the server, the call of `Serve`, its return and the return
of `e`; the call does not return nil. -/
theorem callback_serve_error (env : Env Fs Srv ε) (f : Fs) (opt : Options) (s1 : Srv) (e : ε)
    (h : env.Serve (env.newServer f opt) = some (s1, some e)) :
    returned (callback env f opt) = some (some e) ∧
    (∀ s, Event.Wait s ∉ callback env f opt) ∧
    (callback env f opt).countP Event.isWait = 0 ∧
    returned (callback env f opt) ≠ some none ∧
    callback env f opt =
      [Event.newServer f opt, Event.Serve (env.newServer f opt),
       Event.ServeRet s1 (some e), Event.ret (some e)] := by
  have htr : callback env f opt =
      [Event.newServer f opt, Event.Serve (env.newServer f opt),
       Event.ServeRet s1 (some e), Event.ret (some e)] := by
    simp only [callback, h]
  refine ⟨?_, ?_, ?_, ?_, htr⟩
  · rw [htr]; rfl
  · intro s hs
    rw [htr] at hs
    simp at hs
  · rw [htr]; rfl
  · rw [htr]
    simp [returned]

/-- The statement of `callback_serve_error` in `sampleEnv`, where serving the
filesystem "bad:" fails. -/
theorem callback_serve_error_witness :
    sampleEnv.Serve (sampleEnv.newServer "bad:" Opt) = some (("bad:", 1), some "listen failed") ∧
    returned (callback sampleEnv "bad:" Opt) = some (some "listen failed") ∧
    (callback sampleEnv "bad:" Opt).countP Event.isWait = 0 :=
  ⟨rfl, (callback_serve_error sampleEnv "bad:" Opt ("bad:", 1) "listen failed" rfl).1,
   (callback_serve_error sampleEnv "bad:" Opt ("bad:", 1) "listen failed" rfl).2.2.1⟩

/-- C5: if `Serve()` returns no error, `Wait()` is called exactly once, on the
server `Serve` left, right after `Serve` has returned; when that `Wait`
returns the function returns nil, the return of `Wait` coming before it; and
the function returns only in that case, so never before `Wait` has
returned. -/
theorem callback_serve_ok (env : Env Fs Srv ε) (f : Fs) (opt : Options) (s1 : Srv)
    (h : env.Serve (env.newServer f opt) = some (s1, none)) :
    (callback env f opt).countP Event.isWait = 1 ∧
    (∃ post, callback env f opt =
      [Event.newServer f opt, Event.Serve (env.newServer f opt),
       Event.ServeRet s1 none, Event.Wait s1] ++ post) ∧
    (∀ s2, env.Wait s1 = some s2 →
      returned (callback env f opt) = some none ∧
      callback env f opt =
        [Event.newServer f opt, Event.Serve (env.newServer f opt),
         Event.ServeRet s1 none, Event.Wait s1, Event.WaitRet s2, Event.ret none]) ∧
    (∀ err, returned (callback env f opt) = some err →
      err = none ∧ ∃ s2, env.Wait s1 = some s2) ∧
    (env.Wait s1 = none → returned (callback env f opt) = none) := by
  cases hw : env.Wait s1 with
  | none =>
    have htr : callback env f opt =
        [Event.newServer f opt, Event.Serve (env.newServer f opt),
         Event.ServeRet s1 none, Event.Wait s1] := by
      simp only [callback, h, hw]
    refine ⟨?_, ⟨[], ?_⟩, ?_, ?_, ?_⟩
    · rw [htr]; rfl
    · rw [htr]; rfl
    · intro s2 hs2
      cases hs2
    · intro err herr
      rw [htr] at herr
      simp [returned] at herr
    · intro _
      rw [htr]; rfl
  | some s2 =>
    have htr : callback env f opt =
        [Event.newServer f opt, Event.Serve (env.newServer f opt),
         Event.ServeRet s1 none, Event.Wait s1, Event.WaitRet s2, Event.ret none] := by
      simp only [callback, h, hw]
    refine ⟨?_, ⟨[Event.WaitRet s2, Event.ret none], ?_⟩, ?_, ?_, ?_⟩
    · rw [htr]; rfl
    · rw [htr]; rfl
    · intro s3 hs3
      cases hs3
      exact ⟨by rw [htr]; rfl, htr⟩
    · intro err herr
      rw [htr] at herr
      simp [returned] at herr
      exact ⟨herr.symm, s2, rfl⟩
    · intro hn
      cases hn

/-- The statement of `callback_serve_ok` in `sampleEnv`, where `Wait` returns,
and in `blockingEnv`, where it does not. -/
theorem callback_serve_ok_witness :
    sampleEnv.Serve (sampleEnv.newServer "remote:" Opt) = some (("remote:", 1), none) ∧
    (callback sampleEnv "remote:" Opt).countP Event.isWait = 1 ∧
    returned (callback sampleEnv "remote:" Opt) = some none ∧
    returned (callback blockingEnv "remote:" Opt) = none :=
  ⟨rfl, (callback_serve_ok sampleEnv "remote:" Opt ("remote:", 1) rfl).1,
   ((callback_serve_ok sampleEnv "remote:" Opt ("remote:", 1) rfl).2.2.1 ("remote:", 2) rfl).1,
   (callback_serve_ok blockingEnv "remote:" Opt ("remote:", 1) rfl).2.2.2.2 rfl⟩

/-! ## Run -/

/-- Every construction of a server in `Run` is made by the function handed
to `cmd.Run`, after `CheckArgs` and `NewFsSrc` have returned. -/
theorem newServer_mem_Run (env : Env Fs Srv ε) (opt : Options) (args : List String)
    (f : Fs) (o : Options) (h : Event.newServer f o ∈ Run env opt args) :
    env.CheckArgs 1 1 args = true ∧ env.NewFsSrc args = some f ∧ o = opt := by
  unfold Run at h
  cases hc : env.CheckArgs 1 1 args with
  | false => simp [hc] at h
  | true =>
    cases hf : env.NewFsSrc args with
    | none => simp [hc, hf] at h
    | some f1 =>
      simp only [hc, hf, if_true, List.mem_cons, List.mem_flatten, List.mem_replicate] at h
      rcases h with h | h | h | ⟨l, ⟨_, hl⟩, hmem⟩
      · cases h
      · cases h
      · cases h
      · subst hl
        unfold callback at hmem
        have key : ∀ tl : List (Event Fs Srv ε),
            (∀ ev ∈ tl, ev.isNewServer = false) →
            Event.newServer f o ∈
              Event.newServer f1 opt :: Event.Serve (env.newServer f1 opt) :: tl →
            f = f1 ∧ o = opt := by
          intro tl htl hm
          simp only [List.mem_cons] at hm
          rcases hm with hm | hm | hm
          · cases hm
            exact ⟨rfl, rfl⟩
          · cases hm
          · have := htl _ hm
            simp [Event.isNewServer] at this
        have htl : ∀ ev ∈ (match env.Serve (env.newServer f1 opt) with
            | none => ([] : List (Event Fs Srv ε))
            | some (s1, some err) => [Event.ServeRet s1 (some err), Event.ret (some err)]
            | some (s1, none) =>
              Event.ServeRet s1 none :: Event.Wait s1 ::
                match env.Wait s1 with
                | none => []
                | some s2 => [Event.WaitRet s2, Event.ret none]), ev.isNewServer = false := by
          intro ev hev
          rcases hs : env.Serve (env.newServer f1 opt) with _ | ⟨s1, _ | err⟩
          · rw [hs] at hev
            simp at hev
          · rw [hs] at hev
            rcases hw : env.Wait s1 with _ | s2
            · simp [hw] at hev
              rcases hev with rfl | rfl <;> rfl
            · simp [hw] at hev
              rcases hev with rfl | rfl | rfl | rfl <;> rfl
          · rw [hs] at hev
            simp at hev
            rcases hev with rfl | rfl <;> rfl
        obtain ⟨h1, h2⟩ := key _ htl hmem
        exact ⟨rfl, by rw [h1], h2⟩

/-- C8: the sftp command takes exactly one positional argument.  `Run` first
calls `CheckArgs(1, 1, command, args)`.  Every server it constructs is built
from the filesystem `NewFsSrc(args)` and the options value `Opt`, after
`CheckArgs` has let the run go on.  Given that `CheckArgs` lets a run go on
exactly when the number of arguments is within its two bounds: a server is
constructed only for an argument list of length 1, for any other length the
run consists of the check alone, and for a list of length 1 whose filesystem
is made and whose function `cmd.Run` calls, the server is constructed. -/
theorem Run_one_argument (env : Env Fs Srv ε) (opt : Options) (args : List String)
    (hc : ∀ lo hi (l : List String), env.CheckArgs lo hi l = true ↔ lo ≤ l.length ∧ l.length ≤ hi) :
    (Run env opt args).head? = some (Event.CheckArgs 1 1 args) ∧
    (∀ f o, Event.newServer f o ∈ Run env opt args →
      args.length = 1 ∧ env.NewFsSrc args = some f ∧ o = opt) ∧
    (args.length ≠ 1 →
      Run env opt args = [Event.CheckArgs 1 1 args] ∧
      (Run env opt args).countP Event.isNewServer = 0) ∧
    (∀ f, args.length = 1 → env.NewFsSrc args = some f → 0 < env.cmdRun false true →
      Event.newServer f opt ∈ Run env opt args) := by
  refine ⟨rfl, ?_, ?_, ?_⟩
  · intro f o h
    obtain ⟨h1, h2, h3⟩ := newServer_mem_Run env opt args f o h
    have := (hc 1 1 args).1 h1
    exact ⟨by omega, h2, h3⟩
  · intro hlen
    have hfalse : env.CheckArgs 1 1 args = false := by
      cases hb : env.CheckArgs 1 1 args with
      | false => rfl
      | true =>
        have := (hc 1 1 args).1 hb
        omega
    have htr : Run env opt args = [Event.CheckArgs 1 1 args] := by
      simp [Run, hfalse]
    exact ⟨htr, by rw [htr]; rfl⟩
  · intro f hlen hf hn
    have htrue : env.CheckArgs 1 1 args = true := (hc 1 1 args).2 ⟨by omega, by omega⟩
    obtain ⟨n, hn1⟩ : ∃ n, env.cmdRun false true = n + 1 := ⟨env.cmdRun false true - 1, by omega⟩
    simp [Run, htrue, hf, hn1, List.replicate_succ, callback]

/-- The statement of `Run_one_argument` in `sampleEnv`: with the one argument
"remote:" the server is built from it and `Opt`; with two arguments the run
is the check alone. -/
theorem Run_one_argument_witness :
    (∀ lo hi (l : List String),
      sampleEnv.CheckArgs lo hi l = true ↔ lo ≤ l.length ∧ l.length ≤ hi) ∧
    Event.newServer "remote:" Opt ∈ Run sampleEnv Opt ["remote:"] ∧
    Run sampleEnv Opt ["a:", "b:"] = [Event.CheckArgs 1 1 ["a:", "b:"]] ∧
    (Run sampleEnv Opt []).countP Event.isNewServer = 0 :=
  ⟨fun lo hi l => by simp [sampleEnv],
   (Run_one_argument sampleEnv Opt ["remote:"] (fun lo hi l => by simp [sampleEnv])).2.2.2
     "remote:" rfl rfl (by decide),
   ((Run_one_argument sampleEnv Opt ["a:", "b:"] (fun lo hi l => by simp [sampleEnv])).2.2.1
     (by decide)).1,
   ((Run_one_argument sampleEnv Opt [] (fun lo hi l => by simp [sampleEnv])).2.2.1
     (by decide)).2⟩

/-! ## Start-up and authentication -/

/-- C3: for every options value in which no authentication policy is
configured at all (`NoAuth` false, neither `User` nor `Pass` set, no
authorized-keys list available from the `AuthorizedKeys` file), on every
machine, `Serve` returns the error `NoAuthPolicyError`; no server is
started. -/
theorem Serve_no_auth_policy (host : Host) (opt : Options)
    (hna : opt.NoAuth = false) (hu : opt.User = "") (hp : opt.Pass = "")
    (hk : host.authorizedKeys opt.AuthorizedKeys = none) :
    Serve host opt = Except.error StartError.NoAuthPolicyError ∧
    (∀ r, Serve host opt ≠ Except.ok r) := by
  have hs : Serve host opt = Except.error StartError.NoAuthPolicyError := by
    simp [Serve, configuredPolicy, userPassSet, hna, hu, hp, hk]
  refine ⟨hs, ?_⟩
  intro r hr
  rw [hs] at hr
  cases hr

/-- The statement of `Serve_no_auth_policy` for the initial options on a
machine without an authorized-keys file. -/
theorem Serve_no_auth_policy_witness :
    Opt.NoAuth = false ∧ Opt.User = "" ∧ Opt.Pass = "" ∧
    bareHost.authorizedKeys Opt.AuthorizedKeys = none ∧
    Serve bareHost Opt = Except.error StartError.NoAuthPolicyError :=
  ⟨rfl, rfl, rfl, rfl, (Serve_no_auth_policy bareHost Opt rfl rfl rfl rfl).1⟩

/-- C4: the authentication decision follows the precedence no-auth, then
user/password, then authorized keys.  If `NoAuth` is set every attempt, the
empty one included, is accepted.  Otherwise, if a user/password pair is set,
an attempt is accepted exactly when it is a password attempt whose user name
and password are the configured `User` and `Pass`.  Otherwise, with an
authorized-keys list, an attempt is accepted exactly when it is a public-key
attempt whose fingerprint is in the list. -/
theorem Authenticate_precedence (opt : Options) (authorizedKeys : Option (List String))
    (a : CredentialAttempt) :
    (opt.NoAuth = true → (Authenticate opt authorizedKeys a).accept = true) ∧
    (opt.NoAuth = false → userPassSet opt = true →
      ((Authenticate opt authorizedKeys a).accept = true ↔
        a = CredentialAttempt.password opt.User opt.Pass)) ∧
    (opt.NoAuth = false → userPassSet opt = false →
      ∀ list, authorizedKeys = some list →
        ((Authenticate opt authorizedKeys a).accept = true ↔
          ∃ user fingerprint,
            a = CredentialAttempt.publicKey user fingerprint ∧ fingerprint ∈ list)) := by
  refine ⟨?_, ?_, ?_⟩
  · intro hna
    simp [Authenticate, configuredPolicy, hna, Policy.Authenticate]
  · intro hna hup
    cases a with
    | empty => simp [Authenticate, configuredPolicy, hna, hup, Policy.Authenticate]
    | publicKey u fp => simp [Authenticate, configuredPolicy, hna, hup, Policy.Authenticate]
    | password u p =>
      simp only [Authenticate, configuredPolicy, hna, hup, Policy.Authenticate]
      by_cases h : u = opt.User ∧ p = opt.Pass
      · simp [h]
      · simp only [Bool.false_eq_true, if_false, if_true, h, CredentialAttempt.password.injEq]
  · intro hna hup list hl
    subst hl
    cases a with
    | empty => simp [Authenticate, configuredPolicy, hna, hup, Policy.Authenticate]
    | password u p => simp [Authenticate, configuredPolicy, hna, hup, Policy.Authenticate]
    | publicKey u fp =>
      have hd : (Authenticate opt (some list) (CredentialAttempt.publicKey u fp)).accept
          = decide (fp ∈ list) := by
        by_cases h : fp ∈ list <;>
          simp [Authenticate, configuredPolicy, hna, hup, Policy.Authenticate, h]
      rw [hd, decide_eq_true_iff]
      constructor
      · intro h
        exact ⟨u, fp, rfl, h⟩
      · rintro ⟨u1, fp1, heq, hm⟩
        cases heq
        exact hm

/-- The statement of `Authenticate_precedence` at three settings: no-auth with
the empty attempt, the pair alice/secret with that pair offered, and a list
of two fingerprints with the second one offered. -/
theorem Authenticate_precedence_witness :
    (Authenticate { Opt with NoAuth := true } none CredentialAttempt.empty).accept = true ∧
    (Authenticate { Opt with User := "alice", Pass := "secret" } none
      (CredentialAttempt.password "alice" "secret")).accept = true ∧
    (Authenticate Opt (some ["SHA256:aaa", "SHA256:bbb"])
      (CredentialAttempt.publicKey "bob" "SHA256:bbb")).accept = true :=
  ⟨(Authenticate_precedence { Opt with NoAuth := true } none CredentialAttempt.empty).1 rfl,
   ((Authenticate_precedence { Opt with User := "alice", Pass := "secret" } none
      (CredentialAttempt.password "alice" "secret")).2.1 rfl (by decide)).2 rfl,
   ((Authenticate_precedence Opt (some ["SHA256:aaa", "SHA256:bbb"])
      (CredentialAttempt.publicKey "bob" "SHA256:bbb")).2.2 rfl (by decide) _ rfl).2
      ⟨"bob", "SHA256:bbb", rfl, by decide⟩⟩

end Sftp
